import Mathlib

/-!
Shallow embedding of the signals-light library (include/signals_light/signal.hpp).

Modelling choices, stated once:

* The shared-pointer lifetime machinery is modelled by an explicit state
  LState: markers are allocated from a fresh counter starting at 1 (so a
  live marker id is never the get_id sentinel 0), destroyed markers are
  collected in a list that only grows, and the association of Lifetime
  handles (program variables, named by Nat) to their current marker is an
  association list.  Operations on Lifetime objects (construction, copy,
  move, assignment, destruction) are the inductive LOp, applied by applyOp;
  this mirrors the constructor/assignment/destructor bodies of sl::Lifetime.
* sl::Lifetime_observer wraps a weak pointer; here it is the marker id it
  observes.  is_expired asks whether that marker has been destroyed;
  get_id returns 0 once expired and the (nonzero) marker id while live,
  mirroring the reinterpret_cast of the owned address.
* sl::Slot<R(Args...)> keeps a callable and a vector of observers; here a
  Slot holds a Lean function (callables are modelled as pure: they do not
  mutate the lifetime state or any registry, which is the hypothesis of
  the emission claims) together with the observer list in insertion order.
  std::function emptiness has no Lean counterpart, so the constructor
  validity check is not modelled.
* sl::Identifier wraps a std::uint32_t; here the value is a Nat strictly
  below 2 ^ 32, and next performs the uint32 increment, i.e. + 1 modulo
  2 ^ 32.
* sl::Signal<R(Args...)> keeps a vector of (Identifier, Slot) pairs; emit
  for a non-void result searches the last non-expired entry from the back
  and then runs the loop of the source, returning at that entry.  emit here
  additionally returns the list of values produced by the invoked entries
  in invocation order (the trace of calls), which stands for the side
  effects of the invocations; the C++ code discards all but the last.
  Exceptions (std::invalid_argument, Slot::Expired) become Except values.
-/

namespace sl

/-- Marker state of the lifetime system: the next fresh marker id, the
markers whose owning Lifetime was destroyed or reassigned, and the
association from Lifetime handles to the marker they currently own. -/
structure LState where
  fresh : Nat
  dead : List Nat
  life : List (Nat × Nat)
deriving Repr

/-- Initial lifetime state: no handle bound, marker ids start at 1. -/
def LState.init : LState := ⟨1, [], []⟩

/-- Embeds sl::Lifetime_observer: a weak view of one marker. -/
structure Lifetime_observer where
  handle : Nat
deriving Repr, DecidableEq

/-- Embeds Lifetime_observer::is_expired: the tracked marker was destroyed. -/
def Lifetime_observer.is_expired (o : Lifetime_observer) (s : LState) : Bool :=
  s.dead.contains o.handle

/-- Embeds Lifetime_observer::get_id: zero once expired, the marker id
(the address of the tracked object) while live. -/
def Lifetime_observer.get_id (o : Lifetime_observer) (s : LState) : Nat :=
  if o.is_expired s then 0 else o.handle

/-- Operations of the Lifetime class, acting on named handles: default
construction, copy construction, copy assignment, move construction, move
assignment, destruction. -/
inductive LOp where
  | mk (l : Nat)
  | copyCtor (src dst : Nat)
  | copyAssign (src dst : Nat)
  | moveCtor (src dst : Nat)
  | moveAssign (src dst : Nat)
  | destroy (l : Nat)
deriving Repr, DecidableEq

/-- Applies one Lifetime operation to the lifetime state, following the
bodies of the sl::Lifetime special member functions: default and copy
construction allocate a brand new marker; copy assignment (to a different
object) releases the old marker of the target and allocates a new one;
move construction and assignment transfer the marker and unbind the
source; destruction releases the owned marker.  Releasing the only strong
reference makes the marker dead. -/
def applyOp (s : LState) : LOp → LState
  | .mk l => ⟨s.fresh + 1, s.dead, (l, s.fresh) :: s.life⟩
  | .copyCtor _src dst => ⟨s.fresh + 1, s.dead, (dst, s.fresh) :: s.life⟩
  | .copyAssign src dst =>
    if src = dst then s
    else
      match s.life.lookup dst with
      | some m =>
        ⟨s.fresh + 1, m :: s.dead,
          (dst, s.fresh) :: s.life.filter (fun p => p.1 ≠ dst)⟩
      | none => ⟨s.fresh + 1, s.dead, (dst, s.fresh) :: s.life⟩
  | .moveCtor src dst =>
    match s.life.lookup src with
    | some m => ⟨s.fresh, s.dead, (dst, m) :: s.life.filter (fun p => p.1 ≠ src)⟩
    | none => s
  | .moveAssign src dst =>
    if src = dst then s
    else
      match s.life.lookup src, s.life.lookup dst with
      | some m, some md =>
        ⟨s.fresh, md :: s.dead,
          (dst, m) :: (s.life.filter (fun p => p.1 ≠ src ∧ p.1 ≠ dst))⟩
      | some m, none =>
        ⟨s.fresh, s.dead, (dst, m) :: s.life.filter (fun p => p.1 ≠ src)⟩
      | none, some md =>
        ⟨s.fresh, md :: s.dead, s.life.filter (fun p => p.1 ≠ dst)⟩
      | none, none => s
  | .destroy l =>
    match s.life.lookup l with
    | some m => ⟨s.fresh, m :: s.dead, s.life.filter (fun p => p.1 ≠ l)⟩
    | none => s

/-- Runs a sequence of Lifetime operations from a state. -/
def runLOps (ops : List LOp) (s : LState) : LState :=
  ops.foldl applyOp s

/-- Embeds Lifetime::track: a new observer of the marker currently owned
by the handle (none when the handle is moved-from or never constructed). -/
def LState.track (s : LState) (l : Nat) : Option Lifetime_observer :=
  (s.life.lookup l).map (fun m => ⟨m⟩)

/-- Embeds sl::Slot<R(Args...)>: the wrapped callable together with the
tracked observers in insertion order.  Callables are pure functions. -/
structure Slot (α β : Type) where
  f : α → β
  observers : List Lifetime_observer

/-- Embeds the exception class Slot::Expired. -/
inductive Expired where
  | expired
deriving Repr, DecidableEq

/-- Embeds the invalid-argument failure (std::invalid_argument). -/
inductive SigError where
  | invalidArgument
deriving Repr, DecidableEq

/-- Embeds Slot::is_expired: any-of over the tracked observers. -/
def Slot.is_expired (slot : Slot α β) (s : LState) : Bool :=
  slot.observers.any (fun o => o.is_expired s)

/-- Embeds Slot::operator(): throw Expired when any tracked object has
been destroyed, otherwise forward to the wrapped function. -/
def Slot.call (slot : Slot α β) (s : LState) (a : α) : Except Expired β :=
  if slot.is_expired s then .error .expired else .ok (slot.f a)

/-- Embeds Slot::track(Lifetime_observer): push_back on the observer list. -/
def Slot.track (slot : Slot α β) (x : Lifetime_observer) : Slot α β :=
  ⟨slot.f, slot.observers ++ [x]⟩

/-- Removes the first element satisfying the predicate, none when no
element satisfies it.  This is the find_if plus erase pattern of the
source. -/
def removeFirstP (p : γ → Bool) : List γ → Option (List γ)
  | [] => none
  | y :: rest => if p y then some rest else (removeFirstP p rest).map (y :: ·)

/-- Embeds Slot::untrack: erase the first observer whose get_id equals the
get_id of the argument, std::invalid_argument when none matches. -/
def Slot.untrack (slot : Slot α β) (x : Lifetime_observer) (s : LState) :
    Except SigError (Slot α β) :=
  match removeFirstP (fun y => x.get_id s == y.get_id s) slot.observers with
  | none => .error .invalidArgument
  | some obs => .ok ⟨slot.f, obs⟩

/-- Embeds sl::Identifier: a std::uint32_t value. -/
structure Identifier where
  value : Nat
  isLt : value < 2 ^ 32
deriving DecidableEq

/-- Identifiers are equal when their underlying values are equal. -/
@[ext] theorem Identifier.ext {x y : Identifier} (h : x.value = y.value) :
    x = y := by
  cases x; cases y; simpa using h

/-- Embeds the default constructor Identifier(): the zero value. -/
def Identifier.zero : Identifier := ⟨0, by norm_num⟩

/-- Embeds Identifier::next: increment of the uint32 value, which wraps
modulo 2 ^ 32. -/
def Identifier.next (x : Identifier) : Identifier :=
  ⟨(x.value + 1) % 2 ^ 32, Nat.mod_lt _ (by norm_num)⟩

/-- Helper: the identifier whose value is n modulo 2 ^ 32. -/
def Identifier.ofNat (n : Nat) : Identifier :=
  ⟨n % 2 ^ 32, Nat.mod_lt _ (by norm_num)⟩

/-- Embeds sl::Signal<R(Args...)>: the ordered vector of
(Identifier, Slot) pairs. -/
structure Signal (α β : Type) where
  slots : List (Identifier × Slot α β)

/-- Embeds the default constructor: no connected Slots. -/
def Signal.empty : Signal α β := ⟨[]⟩

/-- Embeds Signal::connect: the new identifier is zero when the sequence
is empty and otherwise next of the identifier of the current last entry;
the pair is appended at the end and the identifier returned. -/
def Signal.connect (sig : Signal α β) (s : Slot α β) : Identifier × Signal α β :=
  let id : Identifier :=
    match sig.slots.getLast? with
    | none => Identifier.zero
    | some p => Identifier.next p.1
  (id, ⟨sig.slots ++ [(id, s)]⟩)

/-- Removes the first entry whose identifier equals the argument,
returning its Slot and the remaining sequence; none when no entry
matches.  This is the find_if plus erase of Signal::disconnect. -/
def removeFirstKey : List (Identifier × Slot α β) → Identifier →
    Option (Slot α β × List (Identifier × Slot α β))
  | [], _ => none
  | p :: rest, id =>
    if p.1 = id then some (p.2, rest)
    else (removeFirstKey rest id).map (fun q => (q.1, p :: q.2))

/-- Embeds Signal::disconnect: remove and return the Slot of the first
entry with the given identifier, std::invalid_argument when none. -/
def Signal.disconnect (sig : Signal α β) (id : Identifier) :
    Except SigError (Slot α β × Signal α β) :=
  match removeFirstKey sig.slots id with
  | none => .error .invalidArgument
  | some q => .ok (q.1, ⟨q.2⟩)

/-- Embeds the reverse find_if of Signal::emit: the index (from the
front) of the last entry that is not expired, none when every entry is
expired. -/
def lastValidIdx (st : LState) : List (Identifier × Slot α β) → Option Nat
  | [] => none
  | p :: rest =>
    match lastValidIdx st rest with
    | some k => some (k + 1)
    | none => if p.2.is_expired st then none else some 0

/-- Embeds the invocation loop of the non-void Signal::emit: walk the
sequence, skip expired entries, return at the entry whose position is the
precomputed last valid index.  The second component collects the values
produced by the invoked entries, in invocation order. -/
def emitLoop (st : LState) (a : α) :
    List (Identifier × Slot α β) → Nat → Option β × List β
  | [], _ => (none, [])
  | p :: rest, k =>
    if p.2.is_expired st then emitLoop st a rest (k - 1)
    else if k = 0 then (some (p.2.f a), [p.2.f a])
    else
      match emitLoop st a rest (k - 1) with
      | (r, tr) => (r, p.2.f a :: tr)

/-- Embeds the non-void branch of Signal::emit: find the last non-expired
entry from the back; when none exists the result is std::nullopt,
otherwise run the loop.  The list component is the trace of produced
values. -/
def Signal.emit (sig : Signal α β) (st : LState) (a : α) : Option β × List β :=
  match lastValidIdx st sig.slots with
  | none => (none, [])
  | some k => emitLoop st a sig.slots k

/-- Written from the words of the specification, for comparison with the
implementation: the non-expired entries in insertion order are all
invoked; the result is the value of the last of them, or no value when
there is none. -/
def Signal.emitSpec (sig : Signal α β) (st : LState) (a : α) : Option β × List β :=
  match (sig.slots.filter (fun p => !(p.2.is_expired st))).getLast? with
  | none => (none, [])
  | some p =>
    (some (p.2.f a),
      (sig.slots.filter (fun q => !(q.2.is_expired st))).map (fun q => q.2.f a))

/-- Embeds Signal::slot_count. -/
def Signal.slot_count (sig : Signal α β) : Nat := sig.slots.length

/-- Embeds Signal::is_empty. -/
def Signal.is_empty (sig : Signal α β) : Bool := sig.slots.isEmpty

/-- Registry operations, for reachability statements: connect a slot,
disconnect an identifier (a failed disconnect throws and leaves the
registry unchanged), emit (which does not modify the registry, callables
being pure). -/
inductive SigOp (α β : Type) where
  | connect (s : Slot α β)
  | disconnect (id : Identifier)
  | emit (st : LState) (a : α)

/-- True exactly on connect operations. -/
def SigOp.isConnect : SigOp α β → Bool
  | .connect _ => true
  | _ => false

/-- Applies one registry operation. -/
def stepOp (sig : Signal α β) : SigOp α β → Signal α β
  | .connect s => (sig.connect s).2
  | .disconnect id =>
    match sig.disconnect id with
    | .ok q => q.2
    | .error _ => sig
  | .emit _ _ => sig

/-- Runs a sequence of registry operations from a registry. -/
def runOps (ops : List (SigOp α β)) (sig : Signal α β) : Signal α β :=
  ops.foldl stepOp sig


/-! Helper lemmas about the emission algorithm. -/

/-- The backwards search fails exactly when no entry survives the
expiration filter. -/
theorem lastValidIdx_eq_none_iff (st : LState) (l : List (Identifier × Slot α β)) :
    lastValidIdx st l = none ↔ l.filter (fun p => !(p.2.is_expired st)) = [] := by
  induction l with
  | nil => simp [lastValidIdx]
  | cons p rest ih =>
    cases h : lastValidIdx st rest with
    | some k =>
      have hne : rest.filter (fun q => !(q.2.is_expired st)) ≠ [] := by
        intro he
        rw [← ih] at he
        rw [he] at h
        cases h
      have h1 : lastValidIdx st (p :: rest) = some (k + 1) := by
        simp [lastValidIdx, h]
      rw [h1]
      constructor
      · intro hc; cases hc
      · intro hc
        exfalso
        apply hne
        by_cases hp : p.2.is_expired st
        · rwa [List.filter_cons_of_neg (by simp [hp])] at hc
        · rw [List.filter_cons_of_pos (by simp [hp])] at hc
          cases hc
    | none =>
      have hrest := ih.mp h
      by_cases hp : p.2.is_expired st <;>
        simp [lastValidIdx, h, hp, List.filter_cons, hrest]

/-- The loop of emit, started at the index found by the backwards search,
computes exactly the specification: the result of the last non-expired
entry and the trace of all non-expired entries in order. -/
theorem emitAux_eq (st : LState) (a : α) (l : List (Identifier × Slot α β)) :
    (match lastValidIdx st l with
     | none => ((none : Option β), ([] : List β))
     | some k => emitLoop st a l k) =
    (match (l.filter (fun p => !(p.2.is_expired st))).getLast? with
     | none => (none, [])
     | some p =>
       (some (p.2.f a),
         (l.filter (fun q => !(q.2.is_expired st))).map (fun q => q.2.f a))) := by
  induction l with
  | nil => rfl
  | cons p rest ih =>
    by_cases hp : p.2.is_expired st
    · have h2 : (p :: rest).filter (fun q => !(q.2.is_expired st)) =
          rest.filter (fun q => !(q.2.is_expired st)) := by
        simp [List.filter_cons, hp]
      cases h : lastValidIdx st rest with
      | none =>
        have h1 : lastValidIdx st (p :: rest) = none := by
          simp [lastValidIdx, h, hp]
        rw [h] at ih
        dsimp only at ih
        rw [h1, h2]
        dsimp only
        exact ih
      | some k =>
        have h1 : lastValidIdx st (p :: rest) = some (k + 1) := by
          simp [lastValidIdx, h]
        have h3 : emitLoop st a (p :: rest) (k + 1) = emitLoop st a rest k := by
          simp [emitLoop, hp]
        rw [h] at ih
        dsimp only at ih
        rw [h1, h2]
        dsimp only
        rw [h3]
        exact ih
    · cases h : lastValidIdx st rest with
      | none =>
        have hf := (lastValidIdx_eq_none_iff st rest).mp h
        have h1 : lastValidIdx st (p :: rest) = some 0 := by
          simp [lastValidIdx, h, hp]
        have h2 : (p :: rest).filter (fun q => !(q.2.is_expired st)) = [p] := by
          simp [List.filter_cons, hp, hf]
        have h3 : emitLoop st a (p :: rest) 0 = (some (p.2.f a), [p.2.f a]) := by
          simp [emitLoop, hp]
        rw [h1, h2]
        dsimp only
        rw [h3]
        rfl
      | some k =>
        rw [h] at ih
        dsimp only at ih
        have hfne : rest.filter (fun q => !(q.2.is_expired st)) ≠ [] := by
          intro he
          rw [← lastValidIdx_eq_none_iff st rest] at he
          rw [he] at h
          cases h
        obtain ⟨q, qs, hqs⟩ := List.exists_cons_of_ne_nil hfne
        rw [hqs] at ih
        cases hql : (q :: qs).getLast? with
        | none => simp at hql
        | some r =>
          rw [hql] at ih
          dsimp only at ih
          have h1 : lastValidIdx st (p :: rest) = some (k + 1) := by
            simp [lastValidIdx, h]
          have h2 : (p :: rest).filter (fun y => !(y.2.is_expired st)) =
              p :: q :: qs := by
            simp [List.filter_cons, hp, hqs]
          have h3 : emitLoop st a (p :: rest) (k + 1) =
              match emitLoop st a rest k with
              | (rr, tr) => (rr, p.2.f a :: tr) := by
            simp [emitLoop, hp]
          rw [h1, h2, List.getLast?_cons_cons, hql]
          dsimp only
          rw [h3, ih]
          simp [List.map_cons]

/-- The implementation of the non-void emit agrees with the
specification-side description. -/
theorem emit_eq_emitSpec (sig : Signal α β) (st : LState) (a : α) :
    sig.emit st a = sig.emitSpec st a :=
  emitAux_eq st a sig.slots

/-- The trace of an emission is exactly the image of the non-expired
entries, in insertion order. -/
theorem emit_trace_eq (sig : Signal α β) (st : LState) (a : α) :
    (sig.emit st a).2 =
      (sig.slots.filter (fun p => !(p.2.is_expired st))).map (fun p => p.2.f a) := by
  rw [emit_eq_emitSpec]
  unfold Signal.emitSpec
  cases hq : (sig.slots.filter (fun p => !(p.2.is_expired st))).getLast? with
  | none =>
    have hnil : sig.slots.filter (fun p => !(p.2.is_expired st)) = [] := by
      simpa using hq
    simp [hnil]
  | some p => simp

/-! Claim theorems. -/

/-- Claim C1: for every non-void-result Registry whose connected callables
do not mutate any tracked Lifetime or the Registry itself (callables are
pure in this model): if no entry is non-expired, emit returns no value and
invokes nothing; otherwise emit invokes every non-expired entry in
insertion order (the second component of emit is the trace of produced
values) and returns the value produced by the last non-expired entry in
insertion order, the results of earlier entries being discarded and
expired entries skipped. -/
theorem C1_emit_invokes_all_returns_last (sig : Signal α β) (st : LState) (a : α) :
    (sig.slots.filter (fun p => !(p.2.is_expired st)) = [] →
      sig.emit st a = (none, [])) ∧
    (∀ p, (sig.slots.filter (fun q => !(q.2.is_expired st))).getLast? = some p →
      sig.emit st a =
        (some (p.2.f a),
          (sig.slots.filter (fun q => !(q.2.is_expired st))).map (fun q => q.2.f a))) := by
  constructor
  · intro hnil
    rw [emit_eq_emitSpec]
    unfold Signal.emitSpec
    rw [hnil]
    rfl
  · intro p hp
    rw [emit_eq_emitSpec]
    unfold Signal.emitSpec
    rw [hp]

/-- Witness for C1 at the concrete scenario of the specification: slots
returning 5 and 3 connected in that order, all lifetimes live; emit
returns 3 and both entries ran in order. -/
theorem C1_witness :
    (Signal.mk [(Identifier.zero, ⟨fun _ => (5 : Nat), []⟩),
      (Identifier.ofNat 1, ⟨fun _ => 3, []⟩)] : Signal Unit Nat).emit LState.init ()
      = (some 3, [5, 3]) := by
  exact (C1_emit_invokes_all_returns_last
    (Signal.mk [(Identifier.zero, ⟨fun _ => (5 : Nat), []⟩),
      (Identifier.ofNat 1, ⟨fun _ => 3, []⟩)]) LState.init ()).2
    (Identifier.ofNat 1, ⟨fun _ => 3, []⟩) rfl

/-- Claim C5: a Slot is expired exactly when at least one tracked observer
is expired; a Slot with no tracked observers is never expired; and the
result depends only on the expiration of the tracked observers, not on
any order in which lifetimes were destroyed. -/
theorem C5_slot_is_expired_anyof (slot : Slot α β) (st : LState) :
    (slot.is_expired st = true ↔ ∃ o ∈ slot.observers, o.is_expired st = true) ∧
    (slot.observers = [] → slot.is_expired st = false) ∧
    (∀ st' : LState,
      (∀ o ∈ slot.observers, o.is_expired st = o.is_expired st') →
      slot.is_expired st = slot.is_expired st') := by
  refine ⟨?_, ?_, ?_⟩
  · simp [Slot.is_expired, List.any_eq_true]
  · intro h
    simp [Slot.is_expired, h]
  · intro st' hcong
    unfold Slot.is_expired
    have aux : ∀ l : List Lifetime_observer,
        (∀ o ∈ l, o.is_expired st = o.is_expired st') →
        l.any (fun o => o.is_expired st) = l.any (fun o => o.is_expired st') := by
      intro l hl
      induction l with
      | nil => rfl
      | cons x xs ihl =>
        have hx := hl x (by simp)
        have ihx := ihl (fun o ho => hl o (by simp [ho]))
        simp [List.any_cons, hx, ihx]
    exact aux slot.observers hcong

/-- Witness for C5: a Slot with an empty tracked collection is live, and a
Slot tracking a destroyed marker is expired. -/
theorem C5_witness :
    (Slot.mk (fun _ => (0 : Nat)) [] : Slot Unit Nat).is_expired LState.init = false ∧
    (Slot.mk (fun _ => (0 : Nat)) [⟨1⟩] : Slot Unit Nat).is_expired ⟨2, [1], []⟩ = true := by
  constructor
  · exact (C5_slot_is_expired_anyof (Slot.mk (fun _ => (0 : Nat)) []) LState.init).2.1 rfl
  · exact (C5_slot_is_expired_anyof (Slot.mk (fun _ => (0 : Nat)) [⟨1⟩]) ⟨2, [1], []⟩).1.mpr
      ⟨⟨1⟩, by simp, rfl⟩

/-- Claim C6: direct invocation of a Slot raises Expired exactly when the
Slot is expired at the moment of the call, and otherwise forwards the
argument to the wrapped callable and returns its result; Registry
emission never raises Expired (emit is a total function here) and instead
silently excludes expired entries: its invocation trace is exactly the
non-expired entries. -/
theorem C6_invoke_emit_asymmetry (slot : Slot α β) (sig : Signal α β)
    (st : LState) (a : α) :
    ((slot.call st a = .error .expired) ↔ slot.is_expired st = true) ∧
    (slot.is_expired st = false → slot.call st a = .ok (slot.f a)) ∧
    ((sig.emit st a).2 =
      (sig.slots.filter (fun p => !(p.2.is_expired st))).map (fun p => p.2.f a)) := by
  refine ⟨?_, ?_, emit_trace_eq sig st a⟩
  · constructor
    · intro hc
      by_cases hs : slot.is_expired st
      · exact hs
      · simp [Slot.call, hs] at hc
    · intro hs
      simp [Slot.call, hs]
  · intro hs
    simp [Slot.call, hs]

/-- Witness for C6: a live Slot forwards to the callable, a Slot tracking
a destroyed marker raises Expired. -/
theorem C6_witness :
    (Slot.mk (fun _ => (7 : Nat)) [] : Slot Unit Nat).call LState.init () = .ok 7 ∧
    (Slot.mk (fun _ => (7 : Nat)) [⟨1⟩] : Slot Unit Nat).call ⟨2, [1], []⟩ ()
      = .error .expired := by
  constructor
  · exact (C6_invoke_emit_asymmetry (Slot.mk (fun _ => (7 : Nat)) [])
      (Signal.mk [] : Signal Unit Nat) LState.init ()).2.1 rfl
  · exact (C6_invoke_emit_asymmetry (Slot.mk (fun _ => (7 : Nat)) [⟨1⟩])
      (Signal.mk [] : Signal Unit Nat) ⟨2, [1], []⟩ ()).1.mpr rfl

/-- Removing the first match in a list that splits as a clean prefix, the
match, and a tail removes exactly the match. -/
theorem removeFirstP_split (p : γ → Bool) (pre : List γ) (y : γ) (post : List γ)
    (hpre : ∀ z ∈ pre, p z = false) (hy : p y = true) :
    removeFirstP p (pre ++ y :: post) = some (pre ++ post) := by
  induction pre with
  | nil => simp [removeFirstP, hy]
  | cons b t ih =>
    have hb := hpre b (by simp)
    have iht := ih (fun z hz => hpre z (by simp [hz]))
    simp [removeFirstP, hb, iht]

/-- Removing the first match fails when nothing matches. -/
theorem removeFirstP_eq_none (p : γ → Bool) (l : List γ)
    (h : ∀ z ∈ l, p z = false) : removeFirstP p l = none := by
  induction l with
  | nil => rfl
  | cons b t ih =>
    simp only [removeFirstP, h b (by simp), Bool.false_eq_true, if_false,
      ih (fun z hz => h z (by simp [hz])), Option.map_none']

/-- Claim C8: untrack removes exactly the first entry of the tracked
collection (in insertion order) whose identity equals the identity of the
argument under get_id equality, leaving the other entries and their order
unchanged; when no entry matches it fails with invalid-argument, leaving
the collection unchanged (failure returns no new Slot in this pure
model). -/
theorem C8_untrack_removes_first_match (slot : Slot α β) (x : Lifetime_observer)
    (st : LState) :
    (∀ pre y post, slot.observers = pre ++ y :: post →
      (∀ z ∈ pre, (x.get_id st == z.get_id st) = false) →
      (x.get_id st == y.get_id st) = true →
      slot.untrack x st = .ok ⟨slot.f, pre ++ post⟩) ∧
    ((∀ o ∈ slot.observers, (x.get_id st == o.get_id st) = false) →
      slot.untrack x st = .error .invalidArgument) := by
  constructor
  · intro pre y post hobs hpre hy
    unfold Slot.untrack
    rw [hobs, removeFirstP_split _ pre y post hpre hy]
  · intro hnone
    unfold Slot.untrack
    rw [removeFirstP_eq_none _ _ hnone]

/-- Witness for C8: a Slot tracking live markers 1 and 2; untracking an
observer of marker 2 removes exactly that entry, and untracking an
observer of an untracked marker fails. -/
theorem C8_witness :
    (Slot.mk (fun _ => (0 : Nat)) [⟨1⟩, ⟨2⟩] : Slot Unit Nat).untrack ⟨2⟩ ⟨3, [], []⟩
      = .ok ⟨fun _ => (0 : Nat), [⟨1⟩]⟩ ∧
    (Slot.mk (fun _ => (0 : Nat)) [⟨1⟩, ⟨2⟩] : Slot Unit Nat).untrack ⟨7⟩ ⟨8, [], []⟩
      = .error .invalidArgument := by
  constructor
  · exact (C8_untrack_removes_first_match
      (Slot.mk (fun _ => (0 : Nat)) [⟨1⟩, ⟨2⟩]) ⟨2⟩ ⟨3, [], []⟩).1
      [⟨1⟩] ⟨2⟩ [] rfl (by decide) (by decide)
  · exact (C8_untrack_removes_first_match
      (Slot.mk (fun _ => (0 : Nat)) [⟨1⟩, ⟨2⟩]) ⟨7⟩ ⟨8, [], []⟩).2 (by decide)

/-- One Lifetime operation never removes a marker from the dead set. -/
theorem contains_dead_applyOp {s : LState} {m : Nat}
    (h : s.dead.contains m = true) (op : LOp) :
    (applyOp s op).dead.contains m = true := by
  cases op with
  | mk l => exact h
  | copyCtor src dst => exact h
  | copyAssign src dst =>
    by_cases hsd : src = dst
    · simpa [applyOp, hsd] using h
    · simp only [applyOp, if_neg hsd]
      cases hl : s.life.lookup dst with
      | some m2 => simpa using Or.inr h
      | none => exact h
  | moveCtor src dst =>
    simp only [applyOp]
    cases hl : s.life.lookup src with
    | some m2 => exact h
    | none => exact h
  | moveAssign src dst =>
    by_cases hsd : src = dst
    · simpa [applyOp, hsd] using h
    · simp only [applyOp, if_neg hsd]
      cases hsrc : s.life.lookup src with
      | some m2 =>
        cases hdst : s.life.lookup dst with
        | some m3 => simpa using Or.inr h
        | none => exact h
      | none =>
        cases hdst : s.life.lookup dst with
        | some m3 => simpa using Or.inr h
        | none => exact h
  | destroy l =>
    simp only [applyOp]
    cases hl : s.life.lookup l with
    | some m2 => simpa using Or.inr h
    | none => exact h

/-- Claim C9: expiration is monotonic: once an observer reports expired,
no sequence of Lifetime operations (construction, copy, assignment, move,
destruction) ever makes it report live again.  Observers themselves only
read the state: is_expired and get_id take the state and return a value
without producing a new state. -/
theorem C9_expiration_monotone (s : LState) (o : Lifetime_observer)
    (ops : List LOp) (h : o.is_expired s = true) :
    o.is_expired (runLOps ops s) = true := by
  induction ops generalizing s with
  | nil => exact h
  | cons op rest ih =>
    exact ih (applyOp s op) (contains_dead_applyOp h op)

/-- Witness for C9: an observer of the destroyed marker 1 stays expired
after further operations. -/
theorem C9_witness :
    (⟨1⟩ : Lifetime_observer).is_expired
      (runLOps [LOp.mk 0, LOp.copyCtor 0 2, LOp.destroy 0] ⟨2, [1], []⟩) = true :=
  C9_expiration_monotone ⟨2, [1], []⟩ ⟨1⟩ [LOp.mk 0, LOp.copyCtor 0 2, LOp.destroy 0] rfl

/-- Helper: a successful association lookup yields a member pair. -/
theorem pair_mem_of_lookup_eq_some {l : List (Nat × Nat)} {a b : Nat}
    (h : l.lookup a = some b) : (a, b) ∈ l := by
  induction l with
  | nil => cases h
  | cons p rest ih =>
    obtain ⟨k, v⟩ := p
    rw [List.lookup] at h
    cases hk : a == k with
    | true =>
      rw [hk] at h
      have hka : a = k := by simpa using hk
      have hvb : v = b := by
        simpa using h
      subst hka
      subst hvb
      exact List.mem_cons_self _ _
    | false =>
      rw [hk] at h
      exact List.mem_cons_of_mem _ (ih h)

/-- Claim C7: copying a Lifetime allocates a new independent marker.
Given a handle l owning marker m (the observer created from l before the
copy observes m) in a well-formed state, copy-constructing a fresh handle
l2 from l binds l2 to a marker m2 different from m; destroying l2 does
not expire the observer of m; an observer created from l2 after the copy
(it observes m2) is live, becomes expired when l2 is destroyed or
reassigned, and destroying l does not expire it. -/
theorem C7_lifetime_copy_independent (s : LState) (l l2 m m2 : Nat)
    (hwfLife : ∀ p ∈ s.life, p.2 < s.fresh)
    (hwfDead : ∀ d ∈ s.dead, d < s.fresh)
    (hne : l ≠ l2)
    (hm : s.life.lookup l = some m)
    (halive : (⟨m⟩ : Lifetime_observer).is_expired s = false)
    (hm2 : (applyOp s (.copyCtor l l2)).life.lookup l2 = some m2) :
    m2 ≠ m ∧
    (⟨m⟩ : Lifetime_observer).is_expired
      (applyOp (applyOp s (.copyCtor l l2)) (.destroy l2)) = false ∧
    (⟨m2⟩ : Lifetime_observer).is_expired (applyOp s (.copyCtor l l2)) = false ∧
    (⟨m2⟩ : Lifetime_observer).is_expired
      (applyOp (applyOp s (.copyCtor l l2)) (.destroy l2)) = true ∧
    (⟨m2⟩ : Lifetime_observer).is_expired
      (applyOp (applyOp s (.copyCtor l l2)) (.copyAssign l l2)) = true ∧
    (⟨m2⟩ : Lifetime_observer).is_expired
      (applyOp (applyOp s (.copyCtor l l2)) (.destroy l)) = false := by
  have hll2 : (l == l2) = false := by simp [hne]
  have hmfresh : m < s.fresh := hwfLife (l, m) (pair_mem_of_lookup_eq_some hm)
  have hdm : m ∉ s.dead := by
    intro hc
    rw [show (⟨m⟩ : Lifetime_observer).is_expired s = true by
      simp [Lifetime_observer.is_expired, hc]] at halive
    cases halive
  have hdf : s.fresh ∉ s.dead := by
    intro hc
    have := hwfDead s.fresh hc
    omega
  have hlook2 : List.lookup l2 ((l2, s.fresh) :: s.life) = some s.fresh := by
    simp [List.lookup]
  have hlookl : List.lookup l ((l2, s.fresh) :: s.life) = some m := by
    simp [List.lookup, hll2, hm]
  have hm2' : m2 = s.fresh := by
    rw [show applyOp s (.copyCtor l l2)
        = ⟨s.fresh + 1, s.dead, (l2, s.fresh) :: s.life⟩ from rfl] at hm2
    rw [show (⟨s.fresh + 1, s.dead, (l2, s.fresh) :: s.life⟩ : LState).life
        = (l2, s.fresh) :: s.life from rfl, hlook2] at hm2
    simpa using hm2.symm
  subst hm2'
  have hs1 : applyOp s (.copyCtor l l2)
      = ⟨s.fresh + 1, s.dead, (l2, s.fresh) :: s.life⟩ := rfl
  have hdestroy2 : applyOp (applyOp s (.copyCtor l l2)) (.destroy l2)
      = ⟨s.fresh + 1, s.fresh :: s.dead,
          ((l2, s.fresh) :: s.life).filter (fun p => p.1 ≠ l2)⟩ := by
    rw [hs1]
    simp [applyOp, hlook2]
  have hassign : applyOp (applyOp s (.copyCtor l l2)) (.copyAssign l l2)
      = ⟨s.fresh + 1 + 1, s.fresh :: s.dead,
          (l2, s.fresh + 1) ::
            ((l2, s.fresh) :: s.life).filter (fun p => p.1 ≠ l2)⟩ := by
    rw [hs1]
    simp [applyOp, if_neg hne, hlook2]
  have hdestroyl : applyOp (applyOp s (.copyCtor l l2)) (.destroy l)
      = ⟨s.fresh + 1, m :: s.dead,
          ((l2, s.fresh) :: s.life).filter (fun p => p.1 ≠ l)⟩ := by
    rw [hs1]
    simp [applyOp, hlookl]
  refine ⟨by omega, ?_, ?_, ?_, ?_, ?_⟩
  · rw [hdestroy2]
    simp [Lifetime_observer.is_expired, hdm]
    omega
  · rw [hs1]
    simp [Lifetime_observer.is_expired, hdf]
  · rw [hdestroy2]
    simp [Lifetime_observer.is_expired]
  · rw [hassign]
    simp [Lifetime_observer.is_expired]
  · rw [hdestroyl]
    simp [Lifetime_observer.is_expired, hdf]
    omega

/-- Connect appends the new pair at the end. -/
theorem connect_slots (sig : Signal α β) (s : Slot α β) :
    (sig.connect s).2.slots = sig.slots ++ [((sig.connect s).1, s)] := rfl

/-- Connect on an empty sequence returns the zero identifier. -/
theorem connect_id_of_empty (sig : Signal α β) (s : Slot α β)
    (h : sig.slots = []) : (sig.connect s).1 = Identifier.zero := by
  simp [Signal.connect, h]

/-- Connect on a nonempty sequence returns next of the last identifier. -/
theorem connect_id_of_last (sig : Signal α β) (s : Slot α β)
    (p : Identifier × Slot α β) (hp : sig.slots.getLast? = some p) :
    (sig.connect s).1 = Identifier.next p.1 := by
  simp [Signal.connect, hp]

/-- Incrementing the identifier of value n modulo 2 ^ 32 gives the
identifier of value n + 1 modulo 2 ^ 32. -/
theorem Identifier.next_ofNat (n : Nat) :
    Identifier.next (Identifier.ofNat n) = Identifier.ofNat (n + 1) := by
  apply Identifier.ext
  simp [Identifier.next, Identifier.ofNat, Nat.mod_add_mod]

/-- After n connect operations from the empty registry the identifiers
are, in order, the values 0, 1, ..., n - 1 reduced modulo 2 ^ 32. -/
theorem ids_replicate_connect (s : Slot α β) (n : Nat) :
    (runOps (List.replicate n (SigOp.connect s)) Signal.empty).slots.map Prod.fst
      = (List.range n).map Identifier.ofNat := by
  induction n with
  | zero => rfl
  | succ n ih =>
    have hstep : runOps (List.replicate (n + 1) (SigOp.connect s)) Signal.empty
        = ((runOps (List.replicate n (SigOp.connect s)) Signal.empty).connect s).2 := by
      rw [List.replicate_succ' n (SigOp.connect s)]
      unfold runOps
      rw [List.foldl_append]
      rfl
    rw [hstep, connect_slots, List.map_append, ih]
    cases n with
    | zero =>
      have hz : ((runOps (List.replicate 0 (SigOp.connect s)) Signal.empty).connect s).1
          = Identifier.zero :=
        connect_id_of_empty _ s rfl
      rw [hz]
      simp [Identifier.zero, Identifier.ofNat, List.range_succ]
    | succ m =>
      have hlast : (runOps (List.replicate (m + 1) (SigOp.connect s))
            Signal.empty).slots.getLast?.map Prod.fst
          = some (Identifier.ofNat m) := by
        rw [← List.getLast?_map, ih, List.range_succ]
        simp
      obtain ⟨p, hp, hp1⟩ := Option.map_eq_some'.mp hlast
      rw [connect_id_of_last _ s p hp, hp1, Identifier.next_ofNat,
        List.range_succ (m + 1), List.map_append]
      rfl

/-- Claim C2 (amended): connect appends the pair (id, slot) at the end and
returns id, where id is the zero identifier when the sequence was empty
before the call, and otherwise the value of id is one greater, modulo
2 ^ 32 (the uint32 arithmetic of Identifier), than the value of the
identifier of the entry that was last before the call. -/
theorem C2_connect_appends_next_id (sig : Signal α β) (s : Slot α β) :
    ((sig.connect s).2.slots = sig.slots ++ [((sig.connect s).1, s)]) ∧
    (sig.slots = [] → (sig.connect s).1 = Identifier.zero) ∧
    (∀ p, sig.slots.getLast? = some p →
      (sig.connect s).1.value = (p.1.value + 1) % 2 ^ 32) := by
  refine ⟨connect_slots sig s, fun h => connect_id_of_empty sig s h, ?_⟩
  intro p hp
  rw [connect_id_of_last sig s p hp]
  rfl

/-- Witness for C2: connecting to the empty registry yields the zero
identifier; connecting to a registry whose last entry has identifier 0
yields the identifier of value 1. -/
theorem C2_witness :
    ((Signal.mk [] : Signal Unit Nat).connect ⟨fun _ => 5, []⟩).1 = Identifier.zero ∧
    ((Signal.mk [(Identifier.zero, ⟨fun _ => 5, []⟩)] : Signal Unit Nat).connect
        ⟨fun _ => 3, []⟩).1.value = (Identifier.zero.value + 1) % 2 ^ 32 := by
  constructor
  · exact (C2_connect_appends_next_id (Signal.mk []) ⟨fun _ => 5, []⟩).2.1 rfl
  · exact (C2_connect_appends_next_id
      (Signal.mk [(Identifier.zero, ⟨fun _ => 5, []⟩)]) ⟨fun _ => 3, []⟩).2.2
      (Identifier.zero, ⟨fun _ => 5, []⟩) rfl

/-- Counterexample to C2 as stated: in the registry reached from empty by
2 ^ 32 connect operations the last entry has identifier value
2 ^ 32 - 1, yet the next connect returns an identifier whose value is not
one greater (the uint32 increment wraps to 0). -/
theorem C2_counterexample :
    ((runOps (List.replicate (2 ^ 32)
        (SigOp.connect (⟨fun _ => 0, []⟩ : Slot Unit Nat)))
        Signal.empty).slots.map Prod.fst).getLast?
      = some ⟨2 ^ 32 - 1, by norm_num⟩ ∧
    ((runOps (List.replicate (2 ^ 32)
        (SigOp.connect (⟨fun _ => 0, []⟩ : Slot Unit Nat)))
        Signal.empty).connect ⟨fun _ => 0, []⟩).1.value ≠ (2 ^ 32 - 1) + 1 := by
  have hids := ids_replicate_connect (⟨fun _ => 0, []⟩ : Slot Unit Nat) (2 ^ 32)
  have hrange : List.range (2 ^ 32) = List.range (2 ^ 32 - 1) ++ [2 ^ 32 - 1] := by
    have hr := List.range_succ (2 ^ 32 - 1)
    have h1 : (2 : Nat) ^ 32 - 1 + 1 = 2 ^ 32 := by norm_num
    rw [Nat.succ_eq_add_one, h1] at hr
    exact hr
  have hlastIds : ((runOps (List.replicate (2 ^ 32)
        (SigOp.connect (⟨fun _ => 0, []⟩ : Slot Unit Nat)))
        Signal.empty).slots.map Prod.fst).getLast?
      = some (Identifier.ofNat (2 ^ 32 - 1)) := by
    rw [hids, hrange]
    simp
  have hof : Identifier.ofNat (2 ^ 32 - 1) = ⟨2 ^ 32 - 1, by norm_num⟩ := by
    apply Identifier.ext
    simp [Identifier.ofNat]
  constructor
  · rw [hlastIds, hof]
  · have hlast : (runOps (List.replicate (2 ^ 32)
          (SigOp.connect (⟨fun _ => 0, []⟩ : Slot Unit Nat)))
          Signal.empty).slots.getLast?.map Prod.fst
        = some (Identifier.ofNat (2 ^ 32 - 1)) := by
      rw [← List.getLast?_map]
      exact hlastIds
    obtain ⟨p, hp, hp1⟩ := Option.map_eq_some'.mp hlast
    rw [connect_id_of_last _ _ p hp, hp1, Identifier.next_ofNat]
    show (2 ^ 32 - 1 + 1) % 2 ^ 32 ≠ 2 ^ 32 - 1 + 1
    norm_num

/-- In a sequence of identifiers with strictly increasing values, every
element is bounded by the last one. -/
theorem value_le_getLast_of_pairwise (l : List Identifier) (x : Identifier)
    (hs : l.Pairwise (fun a b => a.value < b.value))
    (hx : l.getLast? = some x) :
    ∀ y ∈ l, y.value ≤ x.value := by
  induction l with
  | nil => intro y hy; cases hy
  | cons a t ih =>
    have hs' := List.pairwise_cons.mp hs
    intro y hy
    cases t with
    | nil =>
      have hax : a = x := by simpa using hx
      have hya : y = a := by simpa using hy
      rw [hya, hax]
    | cons b t2 =>
      rw [List.getLast?_cons_cons] at hx
      have hxmem : x ∈ b :: t2 := by
        obtain ⟨hne, hgl⟩ :=
          List.mem_getLast?_eq_getLast (Option.mem_def.mpr hx)
        rw [hgl]
        exact List.getLast_mem hne
      rcases List.mem_cons.mp hy with h1 | h2
      · rw [h1]
        exact le_of_lt (hs'.1 x hxmem)
      · exact ih hs'.2 hx y h2

/-- A successful removeFirstKey returns a subsequence of the original
sequence. -/
theorem removeFirstKey_sublist (id : Identifier) :
    ∀ (l : List (Identifier × Slot α β)) (q : Slot α β × List (Identifier × Slot α β)),
      removeFirstKey l id = some q → List.Sublist q.2 l := by
  intro l
  induction l with
  | nil => intro q h; cases h
  | cons p rest ih =>
    intro q h
    rw [removeFirstKey] at h
    by_cases hp : p.1 = id
    · rw [if_pos hp] at h
      injection h with h2
      rw [← h2]
      exact List.sublist_cons_self p rest
    · rw [if_neg hp] at h
      obtain ⟨q2, hq2, hq⟩ := Option.map_eq_some'.mp h
      rw [← hq]
      exact (ih q2 hq2).cons₂ p

/-- Along any operation sequence in which at most 2 ^ 32 - c further
connects happen, a registry whose identifier values are strictly
increasing and below c keeps strictly increasing identifier values, and
they stay below c plus the number of connects performed. -/
theorem runOps_pairwise_lt (ops : List (SigOp α β)) :
    ∀ (sig : Signal α β) (c : Nat),
      (∀ id ∈ sig.slots.map Prod.fst, id.value < c) →
      (sig.slots.map Prod.fst).Pairwise (fun a b => a.value < b.value) →
      c + ops.countP SigOp.isConnect ≤ 2 ^ 32 →
      ((runOps ops sig).slots.map Prod.fst).Pairwise (fun a b => a.value < b.value) := by
  induction ops with
  | nil =>
    intro sig c _hb hs _hc
    exact hs
  | cons op rest ih =>
    intro sig c hb hs hc
    have hrun : runOps (op :: rest) sig = runOps rest (stepOp sig op) := rfl
    rw [hrun]
    cases op with
    | connect s =>
      have hcount : (SigOp.connect s :: rest).countP SigOp.isConnect
          = rest.countP SigOp.isConnect + 1 := by
        rw [List.countP_cons]
        simp [SigOp.isConnect]
      rw [hcount] at hc
      have hstep : stepOp sig (SigOp.connect s) = (sig.connect s).2 := rfl
      rw [hstep]
      cases hlast : sig.slots.getLast? with
      | none =>
        have hempty : sig.slots = [] := by
          simpa [List.getLast?_eq_none_iff] using hlast
        have hid := connect_id_of_empty sig s hempty
        refine ih (sig.connect s).2 (c + 1) ?_ ?_ (by omega)
        · intro x hx
          rw [connect_slots, hempty, hid] at hx
          simp at hx
          rw [hx]
          simp [Identifier.zero]
        · rw [connect_slots, hempty, hid]
          simp
      | some p =>
        have hid := connect_id_of_last sig s p hlast
        have hpmem : p ∈ sig.slots := by
          obtain ⟨hne, hgl⟩ :=
            List.mem_getLast?_eq_getLast (Option.mem_def.mpr hlast)
          rw [hgl]
          exact List.getLast_mem hne
        have hpb : p.1.value < c := hb p.1 (List.mem_map_of_mem Prod.fst hpmem)
        have hnowrap : p.1.value + 1 < 2 ^ 32 := by omega
        have hidval : ((sig.connect s).1).value = p.1.value + 1 := by
          rw [hid]
          show (p.1.value + 1) % 2 ^ 32 = p.1.value + 1
          exact Nat.mod_eq_of_lt hnowrap
        have hlastIds : (sig.slots.map Prod.fst).getLast? = some p.1 := by
          rw [List.getLast?_map, hlast]
          rfl
        have hmax := value_le_getLast_of_pairwise (sig.slots.map Prod.fst) p.1 hs hlastIds
        refine ih (sig.connect s).2 (c + 1) ?_ ?_ (by omega)
        · intro x hx
          rw [connect_slots, List.map_append] at hx
          rcases List.mem_append.mp hx with h1 | h1
          · exact lt_trans (hb x h1) (by omega)
          · simp at h1
            rw [h1, hidval]
            omega
        · rw [connect_slots, List.map_append]
          rw [List.pairwise_append]
          refine ⟨hs, by simp, ?_⟩
          intro x hx y hy
          simp at hy
          rw [hy, hidval]
          have := hmax x hx
          omega
    | disconnect id =>
      have hcount : (SigOp.disconnect id :: rest).countP
            (SigOp.isConnect (α := α) (β := β))
          = rest.countP SigOp.isConnect := by
        rw [List.countP_cons]
        simp [SigOp.isConnect]
      rw [hcount] at hc
      have hstep : stepOp sig (SigOp.disconnect id)
          = (match sig.disconnect id with
             | .ok q => q.2
             | .error _ => sig) := rfl
      rw [hstep]
      cases hq : sig.disconnect id with
      | error e =>
        exact ih sig c hb hs hc
      | ok q =>
        unfold Signal.disconnect at hq
        cases hrk : removeFirstKey sig.slots id with
        | none => rw [hrk] at hq; cases hq
        | some q2 =>
          rw [hrk] at hq
          injection hq with hq2
          have hsub : List.Sublist q2.2 sig.slots :=
            removeFirstKey_sublist id sig.slots q2 hrk
          have hsubIds : List.Sublist (q2.2.map Prod.fst) (sig.slots.map Prod.fst) :=
            hsub.map Prod.fst
          refine ih q.2 c ?_ ?_ hc
          · intro x hx
            rw [← hq2] at hx
            exact hb x (hsubIds.subset hx)
          · rw [← hq2]
            exact hs.sublist hsubIds
    | emit st a =>
      have hcount : (SigOp.emit st a :: rest).countP SigOp.isConnect
          = rest.countP SigOp.isConnect := by
        rw [List.countP_cons]
        simp [SigOp.isConnect]
      rw [hcount] at hc
      exact ih sig c hb hs hc

/-- Claim C3 (amended): for every Registry state reachable from the empty
Registry by a finite sequence of connect, disconnect and emit operations
containing fewer than 2 ^ 32 connect operations, the identifiers of the
currently-registered entries are pairwise distinct. -/
theorem C3_reachable_ids_distinct (ops : List (SigOp α β))
    (h : ops.countP SigOp.isConnect < 2 ^ 32) :
    ((runOps ops Signal.empty).slots.map Prod.fst).Nodup := by
  have hmain := runOps_pairwise_lt ops Signal.empty 0
    (by intro x hx; cases hx) (by constructor) (by omega)
  refine hmain.imp ?_
  intro a b hab heq
  rw [heq] at hab
  exact lt_irrefl _ hab

/-- Witness for C3: one connect operation, identifiers are distinct. -/
theorem C3_witness :
    ([SigOp.connect (⟨fun _ => (0 : Nat), []⟩ : Slot Unit Nat)].countP
        SigOp.isConnect < 2 ^ 32) ∧
    ((runOps [SigOp.connect (⟨fun _ => (0 : Nat), []⟩ : Slot Unit Nat)]
        Signal.empty).slots.map Prod.fst).Nodup :=
  ⟨by decide, C3_reachable_ids_distinct _ (by decide)⟩

/-- Counterexample to C3 as stated: the registry reached from empty by the
finite sequence of 2 ^ 32 + 1 connect operations has the identifier value
0 registered twice, so the identifiers are not pairwise distinct. -/
theorem C3_counterexample :
    ¬ ((runOps (List.replicate (2 ^ 32 + 1)
        (SigOp.connect (⟨fun _ => 0, []⟩ : Slot Unit Nat)))
        Signal.empty).slots.map Prod.fst).Nodup := by
  rw [ids_replicate_connect]
  intro hnd
  have h0 : (0 : Nat) < ((List.range (2 ^ 32 + 1)).map Identifier.ofNat).length := by
    simp
  have h1 : (2 : Nat) ^ 32 < ((List.range (2 ^ 32 + 1)).map Identifier.ofNat).length := by
    simp
  have hne := (List.pairwise_iff_getElem.mp hnd) 0 (2 ^ 32) h0 h1 (by norm_num)
  apply hne
  rw [List.getElem_map, List.getElem_map, List.getElem_range, List.getElem_range]
  apply Identifier.ext
  show 0 % 2 ^ 32 = 2 ^ 32 % 2 ^ 32
  simp

/-- Claim C10: identifier reuse without the registry ever becoming empty:
from the empty registry, connect returns identifier 0, a second connect
returns identifier value 1, disconnecting identifier 1 leaves the
registry nonempty, and the next connect returns identifier value 1 a
second time; the registry is nonempty after its first connect at every
step. -/
theorem C10_identifier_reuse_without_emptying :
    ((Signal.mk [] : Signal Unit Nat).connect ⟨fun _ => (5 : Nat), []⟩).1
      = Identifier.zero ∧
    ((((Signal.mk [] : Signal Unit Nat).connect ⟨fun _ => (5 : Nat), []⟩).2.connect
        ⟨fun _ => 3, []⟩).1).value = 1 ∧
    (((Signal.mk [] : Signal Unit Nat).connect
        ⟨fun _ => (5 : Nat), []⟩).2.slots.isEmpty = false) ∧
    ((((Signal.mk [] : Signal Unit Nat).connect ⟨fun _ => (5 : Nat), []⟩).2.connect
        ⟨fun _ => 3, []⟩).2.slots.isEmpty = false) ∧
    (((((Signal.mk [] : Signal Unit Nat).connect ⟨fun _ => (5 : Nat), []⟩).2.connect
        ⟨fun _ => 3, []⟩).2.disconnect ⟨1, by norm_num⟩).map
      (fun q => (q.2.slots.isEmpty, (q.2.connect ⟨fun _ => (3 : Nat), []⟩).1.value)))
      = .ok (false, 1) := by
  exact ⟨rfl, rfl, rfl, rfl, rfl⟩

/-- Removing by an identifier that is not registered fails. -/
theorem removeFirstKey_eq_none (l : List (Identifier × Slot α β)) (id : Identifier)
    (h : id ∉ l.map Prod.fst) : removeFirstKey l id = none := by
  induction l with
  | nil => rfl
  | cons p rest ih =>
    have hp : ¬(p.1 = id) := by
      intro he
      exact h (by simp [he])
    have ht : id ∉ rest.map Prod.fst := by
      intro hm
      exact h (by simp [hm])
    simp [removeFirstKey, hp, ih ht]

/-- Removing by the identifier of the first matching entry removes exactly
that entry. -/
theorem removeFirstKey_split (pre : List (Identifier × Slot α β)) (id : Identifier)
    (s : Slot α β) (post : List (Identifier × Slot α β))
    (hpre : id ∉ pre.map Prod.fst) :
    removeFirstKey (pre ++ (id, s) :: post) id = some (s, pre ++ post) := by
  induction pre with
  | nil => simp [removeFirstKey]
  | cons p t ih =>
    have hp : ¬(p.1 = id) := by
      intro he
      exact hpre (by simp [he])
    have ht : id ∉ t.map Prod.fst := by
      intro hm
      exact hpre (by simp [hm])
    simp [removeFirstKey, hp, ih ht]

/-- Removing by a registered identifier succeeds. -/
theorem removeFirstKey_isSome (l : List (Identifier × Slot α β)) (id : Identifier)
    (h : id ∈ l.map Prod.fst) : ∃ q, removeFirstKey l id = some q := by
  induction l with
  | nil => cases h
  | cons p rest ih =>
    by_cases hp : p.1 = id
    · exact ⟨(p.2, rest), by simp [removeFirstKey, hp]⟩
    · have hm : id ∈ rest.map Prod.fst := by
        rcases List.mem_cons.mp h with h1 | h1
        · exact absurd h1.symm hp
        · exact h1
      obtain ⟨q2, hq2⟩ := ih hm
      exact ⟨(q2.1, p :: q2.2), by simp [removeFirstKey, hp, hq2]⟩

/-- After removal of the first entry with a given identifier, the
remaining identifiers are the original ones with the first occurrence
erased. -/
theorem removeFirstKey_map_fst (id : Identifier) :
    ∀ (l : List (Identifier × Slot α β)) (q : Slot α β × List (Identifier × Slot α β)),
      removeFirstKey l id = some q →
      q.2.map Prod.fst = (l.map Prod.fst).erase id := by
  intro l
  induction l with
  | nil => intro q h; cases h
  | cons p rest ih =>
    intro q h
    rw [removeFirstKey] at h
    by_cases hp : p.1 = id
    · rw [if_pos hp] at h
      injection h with h2
      rw [← h2, List.map_cons, hp, List.erase_cons_head]
    · rw [if_neg hp] at h
      obtain ⟨q2, hq2, hq⟩ := Option.map_eq_some'.mp h
      rw [← hq]
      rw [List.map_cons, List.map_cons,
        List.erase_cons_tail (not_beq_of_ne hp), ih q2 hq2]

/-- Claim C4 (amended): for a Registry whose currently-registered
identifiers are pairwise distinct (as holds in every state reachable with
fewer than 2 ^ 32 connects) and an identifier id: when an entry with
identifier id is registered, disconnect removes exactly that entry,
leaving the rest of the sequence in order, and returns its Tracked
Callable, and a second disconnect with the same identifier fails with
invalid-argument; when no entry carries id (an id already disconnected,
or the zero default identifier when never used), disconnect fails with
invalid-argument, and in this pure model a failing disconnect returns no
new registry, so the Registry is left exactly as it was. -/
theorem C4_disconnect_removes_or_fails (sig : Signal α β) (id : Identifier)
    (hnd : (sig.slots.map Prod.fst).Nodup) :
    (∀ pre s post, sig.slots = pre ++ (id, s) :: post →
      sig.disconnect id = .ok (s, ⟨pre ++ post⟩) ∧
      (Signal.mk (pre ++ post)).disconnect id = .error .invalidArgument) ∧
    (id ∉ sig.slots.map Prod.fst →
      sig.disconnect id = .error .invalidArgument) := by
  constructor
  · intro pre s post hsplit
    rw [hsplit] at hnd
    rw [List.map_append, List.map_cons] at hnd
    have h1 := List.nodup_append.mp hnd
    have hidpre : id ∉ pre.map Prod.fst := by
      intro hm
      exact h1.2.2 hm (by simp)
    have hidpost : id ∉ post.map Prod.fst := (List.nodup_cons.mp h1.2.1).1
    have hnp : id ∉ (pre ++ post).map Prod.fst := by
      rw [List.map_append]
      intro hm
      rcases List.mem_append.mp hm with h2 | h2
      · exact hidpre h2
      · exact hidpost h2
    constructor
    · unfold Signal.disconnect
      rw [hsplit, removeFirstKey_split pre id s post hidpre]
    · unfold Signal.disconnect
      rw [show (Signal.mk (pre ++ post) : Signal α β).slots = pre ++ post from rfl,
        removeFirstKey_eq_none (pre ++ post) id hnp]
  · intro hnot
    unfold Signal.disconnect
    rw [removeFirstKey_eq_none sig.slots id hnot]

/-- Witness for C4: in a registry with entries 0 and 1, disconnecting 1
removes exactly that entry and returns its slot, disconnecting 1 again
fails; disconnecting the never-used identifier 7 fails. -/
theorem C4_witness :
    ((Signal.mk [(Identifier.zero, ⟨fun _ => (5 : Nat), []⟩),
        (Identifier.ofNat 1, ⟨fun _ => 3, []⟩)] : Signal Unit Nat).disconnect
        (Identifier.ofNat 1)
      = .ok (⟨fun _ => 3, []⟩, ⟨[(Identifier.zero, ⟨fun _ => 5, []⟩)]⟩)) ∧
    ((Signal.mk [(Identifier.zero, ⟨fun _ => (5 : Nat), []⟩)] : Signal Unit Nat).disconnect
        (Identifier.ofNat 1) = .error .invalidArgument) ∧
    ((Signal.mk [(Identifier.zero, ⟨fun _ => (5 : Nat), []⟩),
        (Identifier.ofNat 1, ⟨fun _ => 3, []⟩)] : Signal Unit Nat).disconnect
        (Identifier.ofNat 7) = .error .invalidArgument) := by
  refine ⟨?_, ?_, ?_⟩
  · exact ((C4_disconnect_removes_or_fails
      (Signal.mk [(Identifier.zero, ⟨fun _ => (5 : Nat), []⟩),
        (Identifier.ofNat 1, ⟨fun _ => 3, []⟩)]) (Identifier.ofNat 1) (by decide)).1
      [(Identifier.zero, ⟨fun _ => 5, []⟩)] ⟨fun _ => 3, []⟩ [] rfl).1
  · exact (C4_disconnect_removes_or_fails
      (Signal.mk [(Identifier.zero, ⟨fun _ => (5 : Nat), []⟩)])
      (Identifier.ofNat 1) (by decide)).2 (by decide)
  · exact (C4_disconnect_removes_or_fails
      (Signal.mk [(Identifier.zero, ⟨fun _ => (5 : Nat), []⟩),
        (Identifier.ofNat 1, ⟨fun _ => 3, []⟩)])
      (Identifier.ofNat 7) (by decide)).2 (by decide)

/-- When an identifier is registered twice, two disconnects in a row with
that identifier both succeed. -/
theorem disconnect_twice_succeeds (sig : Signal α β) (id : Identifier)
    (h1 : id ∈ sig.slots.map Prod.fst)
    (h2 : id ∈ (sig.slots.map Prod.fst).erase id) :
    ((sig.disconnect id).bind (fun q => q.2.disconnect id)).isOk = true := by
  obtain ⟨q, hq⟩ := removeFirstKey_isSome _ id h1
  have hids2 := removeFirstKey_map_fst id _ q hq
  have hmem2 : id ∈ q.2.map Prod.fst := by
    rw [hids2]
    exact h2
  obtain ⟨q2, hq2⟩ := removeFirstKey_isSome q.2 id hmem2
  have hdis1 : sig.disconnect id = .ok (q.1, ⟨q.2⟩) := by
    unfold Signal.disconnect
    rw [hq]
  have hdis2 : (Signal.mk q.2 : Signal α β).disconnect id = .ok (q2.1, ⟨q2.2⟩) := by
    unfold Signal.disconnect
    rw [show (Signal.mk q.2 : Signal α β).slots = q.2 from rfl, hq2]
  rw [hdis1]
  show ((Signal.mk q.2 : Signal α β).disconnect id).isOk = true
  rw [hdis2]
  rfl

/-- Counterexample to C4 as stated: in the registry reached from empty by
the finite sequence of 2 ^ 32 + 1 connect operations the identifier 0 is
registered twice, and disconnecting identifier 0 twice in a row succeeds
both times, contradicting that the second call must fail. -/
theorem C4_counterexample :
    (((runOps (List.replicate (2 ^ 32 + 1)
        (SigOp.connect (⟨fun _ => 0, []⟩ : Slot Unit Nat)))
        Signal.empty).disconnect Identifier.zero).bind
      (fun q => q.2.disconnect Identifier.zero)).isOk = true := by
  have hz : Identifier.ofNat 0 = Identifier.zero := by
    apply Identifier.ext
    simp [Identifier.ofNat, Identifier.zero]
  have htail : Identifier.zero ∈ (List.range (2 ^ 32)).map
      (Identifier.ofNat ∘ Nat.succ) := by
    refine List.mem_map.mpr ⟨2 ^ 32 - 1, List.mem_range.mpr (by norm_num), ?_⟩
    apply Identifier.ext
    show Nat.succ (2 ^ 32 - 1) % 2 ^ 32 = 0
    rw [Nat.succ_eq_add_one]
    norm_num
  have hrw : (List.range (2 ^ 32 + 1)).map Identifier.ofNat
      = Identifier.zero :: (List.range (2 ^ 32)).map (Identifier.ofNat ∘ Nat.succ) := by
    rw [List.range_succ_eq_map, List.map_cons, List.map_map, hz]
  apply disconnect_twice_succeeds
  · rw [ids_replicate_connect, hrw]
    exact List.mem_cons_self _ _
  · rw [ids_replicate_connect, hrw, List.erase_cons_head]
    exact htail

/-- Witness for C7: state with handle 0 owning marker 1; copying handle 0
into handle 5 allocates marker 2 and the independence conclusions hold
there. -/
theorem C7_witness :
    (2 : Nat) ≠ 1 ∧
    (⟨1⟩ : Lifetime_observer).is_expired
      (applyOp (applyOp ⟨2, [], [(0, 1)]⟩ (.copyCtor 0 5)) (.destroy 5)) = false ∧
    (⟨2⟩ : Lifetime_observer).is_expired
      (applyOp ⟨2, [], [(0, 1)]⟩ (.copyCtor 0 5)) = false ∧
    (⟨2⟩ : Lifetime_observer).is_expired
      (applyOp (applyOp ⟨2, [], [(0, 1)]⟩ (.copyCtor 0 5)) (.destroy 5)) = true ∧
    (⟨2⟩ : Lifetime_observer).is_expired
      (applyOp (applyOp ⟨2, [], [(0, 1)]⟩ (.copyCtor 0 5)) (.copyAssign 0 5)) = true ∧
    (⟨2⟩ : Lifetime_observer).is_expired
      (applyOp (applyOp ⟨2, [], [(0, 1)]⟩ (.copyCtor 0 5)) (.destroy 0)) = false :=
  C7_lifetime_copy_independent ⟨2, [], [(0, 1)]⟩ 0 5 1 2
    (by decide) (by decide) (by decide) rfl rfl rfl

end sl
